import Mathlib

/-
  Shallow embedding of the `uri` Go package (RFC 6570 level-4 URI templates):
  parsing of template strings into parts/terms and expansion against a value
  environment, including percent-encoding.

  Go strings are modelled as lists of bytes (`List Nat`), because every string
  operation the package performs (strings.Split on ASCII separators,
  strings.Contains, byte indexing `s[0]`, byte slicing `s[:n]`, and the
  regexp-based percent-encoder) is byte-oriented.
-/

namespace Uri

/-- A Go string, as its byte sequence. -/
abbrev Str := List Nat

/-- Errors are the strings produced by Go's errors.New. -/
abbrev Err := Str

/-- UTF-8 encoding of one code point, used to translate Lean string literals
into the byte sequences Go strings hold. -/
def utf8Bytes (c : Char) : List Nat :=
  let n := c.toNat
  if n < 0x80 then [n]
  else if n < 0x800 then [0xC0 + n / 0x40, 0x80 + n % 0x40]
  else if n < 0x10000 then
    [0xE0 + n / 0x1000, 0x80 + (n / 0x40) % 0x40, 0x80 + n % 0x40]
  else
    [0xF0 + n / 0x40000, 0x80 + (n / 0x1000) % 0x40, 0x80 + (n / 0x40) % 0x40,
     0x80 + n % 0x40]

/-- The byte sequence of a Lean string literal, i.e. the corresponding Go string. -/
def goStr (s : String) : Str := s.data.flatMap utf8Bytes

/-- strings.Split with a single-byte separator: Go's strings.Split never
returns an empty slice. -/
def splitByte (c : Nat) : Str → List Str
  | [] => [[]]
  | b :: rest =>
    if b = c then [] :: splitByte c rest
    else
      match splitByte c rest with
      | [] => [[b]]
      | g :: gs => (b :: g) :: gs

/-- The byte class of the regexp [^A-Za-z0-9\-._~]: members are left as-is. -/
def isUnreservedByte (b : Nat) : Bool :=
  (65 ≤ b && b ≤ 90) || (97 ≤ b && b ≤ 122) || (48 ≤ b && b ≤ 57) ||
  b == 45 || b == 46 || b == 95 || b == 126

/-- The byte class of the regexp [^A-Za-z0-9\-._~:/?#[\]@!$&'()*+,;=]:
unreserved plus the listed reserved bytes. -/
def isReservedAllowedByte (b : Nat) : Bool :=
  isUnreservedByte b ||
  b == 58 || b == 47 || b == 63 || b == 35 || b == 91 || b == 93 ||
  b == 64 || b == 33 || b == 36 || b == 38 || b == 39 || b == 40 ||
  b == 41 || b == 42 || b == 43 || b == 44 || b == 59 || b == 61

/-- hex = "0123456789ABCDEF"; hexDigit n is the byte hex[n]. -/
def hexDigit (n : Nat) : Nat := if n < 10 then 48 + n else 55 + n

/-- pctEncode of one byte: '%' followed by two uppercase hex digits. -/
def pctByte (b : Nat) : List Nat := [37, hexDigit (b / 16), hexDigit (b % 16)]

/-- escape: Go applies regexp.ReplaceAllFunc with pctEncode over the byte
slice of s.  The negated character classes match rune-wise, but every byte of
a multi-byte rune is ≥ 0x80 and hence outside both (ASCII-only) allowed sets,
and ReplaceAllFunc hands the matched bytes to pctEncode which encodes each
byte separately, so the net effect is exactly byte-wise: a byte in the allowed
set is kept, any other byte becomes %XX. -/
def escape (s : Str) (allowReserved : Bool) : Str :=
  s.flatMap fun b =>
    if (if allowReserved then isReservedAllowedByte b else isUnreservedByte b)
    then [b] else pctByte b

/-- One varspec: name, explode flag, truncate length (a Go int, so it can be
negative when the template said e.g. "x:-1"). -/
structure templateTerm where
  name : Str
  explode : Bool
  truncate : Int
deriving DecidableEq, Repr

/-- One part of a template: a literal (raw ≠ "") or an expression with its
operator-derived configuration. Zero values mirror Go's zero-valued struct. -/
structure templatePart where
  raw : Str
  terms : List templateTerm
  first : Str
  sep : Str
  named : Bool
  ifemp : Str
  allowReserved : Bool
deriving DecidableEq, Repr

/-- A parsed template. -/
structure Template where
  raw : Str
  parts : List templatePart
deriving DecidableEq, Repr

/-- strconv.ParseInt(s, 10, 0): optional sign, decimal digits, 64-bit range
check (error messages abbreviated; the package only tests err against nil). -/
def parseIntGo (s : Str) : Int × Option Err :=
  match s with
  | [] => (0, some (goStr "invalid syntax"))
  | c :: rest =>
    let neg : Bool := c = 45
    let digits : Str := if c = 45 ∨ c = 43 then rest else c :: rest
    if digits = [] ∨ ¬ (digits.all fun d => 48 ≤ d ∧ d ≤ 57) then
      (0, some (goStr "invalid syntax"))
    else
      let v : Int := (digits.foldl (fun a d => a * 10 + (d - 48)) 0 : Nat)
      let v : Int := if neg then -v else v
      if v < -(2 ^ 63) then (-(2 ^ 63), some (goStr "value out of range"))
      else if (2 ^ 63 - 1 : Int) < v then (2 ^ 63 - 1, some (goStr "value out of range"))
      else (v, none)

/-- A byte matching the regexp class [A-Za-z0-9_.]. -/
def isNameChar (c : Nat) : Bool :=
  (65 ≤ c && c ≤ 90) || (97 ≤ c && c ≤ 122) || (48 ≤ c && c ≤ 57) ||
  c == 95 || c == 46

/-- A byte matching [0-9A-Fa-f]. -/
def isHexChar (c : Nat) : Bool :=
  (48 ≤ c && c ≤ 57) || (65 ≤ c && c ≤ 70) || (97 ≤ c && c ≤ 102)

/-- Matching of ^([A-Za-z0-9_.]|%[0-9A-Fa-f][0-9A-Fa-f])+$ after the leading
anchor: '%' can only be consumed by the %HH alternative. -/
def validnameCore : Str → Bool
  | [] => true
  | 37 :: h1 :: h2 :: rest => isHexChar h1 && isHexChar h2 && validnameCore rest
  | c :: rest => isNameChar c && validnameCore rest

/-- validname.MatchString: the anchored pattern requires at least one atom. -/
def validname (s : Str) : Bool := !(s = []) && validnameCore s

/-- parseTerm, mirroring the Go statement order: strip a trailing '*', split
on ':', then the validname check (which overwrites any earlier error) and the
explode/truncate exclusion check. -/
def parseTerm (trm : Str) : templateTerm × Option Err :=
  let explode : Bool := trm.getLast? == some 42
  let t1 : Str := if explode then trm.dropLast else trm
  let nve : Str × Int × Option Err :=
    match splitByte 58 t1 with
    | [_] => (t1, 0, none)
    | [a, b] =>
      let pe := parseIntGo b
      (a, pe.1, pe.2)
    | _ => ([], 0, some (goStr "multiple colons in same term"))
  let name := nve.1
  let truncate := nve.2.1
  let err := nve.2.2
  let err := if validname name then err else some (goStr "not a valid name: " ++ name)
  let err :=
    if explode && decide (0 < truncate) then
      some (goStr "both explode and prefix modifers on same term")
    else err
  (⟨name, explode, truncate⟩, err)

/-- The loop over raw terms in parseExpression: stops at the first error
(the partially-filled slice is discarded by Parse anyway). -/
def parseTerms : List Str → List templateTerm × Option Err
  | [] => ([], none)
  | r :: rs =>
    let te := parseTerm r
    match te.2 with
    | some e => ([te.1], some e)
    | none =>
      let rest := parseTerms rs
      (te.1 :: rest.1, rest.2)

/-- The operator switch of parseExpression: first, sep, named, ifemp,
allowReserved for each of the seven operator bytes; none for any other byte. -/
def exprConfig (c : Nat) : Option (Str × Str × Bool × Str × Bool) :=
  if c = 43 then some ([], [44], false, [], true)
  else if c = 46 then some ([46], [46], false, [], false)
  else if c = 47 then some ([47], [47], false, [], false)
  else if c = 59 then some ([59], [59], true, [], false)
  else if c = 63 then some ([63], [38], true, [61], false)
  else if c = 38 then some ([38], [38], true, [61], false)
  else if c = 35 then some ([35], [44], false, [], true)
  else none

/-- parseExpression: Go starts with `switch expression[0]`, which panics
(index out of range) when the expression body is empty — modelled as `none`.
Otherwise the operator fixes the configuration, the rest is split on ',' and
each piece parsed as a term; the part is returned together with the first
term error, if any. -/
def parseExpression (expression : Str) : Option (templatePart × Option Err) :=
  match expression with
  | [] => none
  | c :: es =>
    let cr : (Str × Str × Bool × Str × Bool) × Str :=
      match exprConfig c with
      | some cfg => (cfg, es)
      | none => (([], [44], false, [], false), c :: es)
    let cfg := cr.1
    let ts := parseTerms (splitByte 44 cr.2)
    some (⟨[], ts.1, cfg.1, cfg.2.1, cfg.2.2.1, cfg.2.2.2.1, cfg.2.2.2.2⟩, ts.2)

/-- A literal part: only its raw text is set (the Go zero value elsewhere). -/
def litPart (s : Str) : templatePart := ⟨s, [], [], [], false, [], false⟩

/-- The loop of Parse over the segments after the first '\x7b'-split segment:
each must contain exactly one '\x7d'; the text before it is an expression, the
text after it the following literal.  `none` propagates a parseExpression
panic; errors stop the loop. -/
def parsePairs : List Str → Option (Except Err (List templatePart))
  | [] => some (.ok [])
  | s :: ss =>
    match splitByte 125 s with
    | [expr, lit] =>
      match parseExpression expr with
      | none => none
      | some (_, some e) => some (.error e)
      | some (part, none) =>
        match parsePairs ss with
        | none => none
        | some (.error e) => some (.error e)
        | some (.ok rest) => some (.ok (part :: litPart lit :: rest))
    | _ => some (.error (goStr "malformed template"))

/-- Parse: split the raw template on '\x7b'; the first segment is a literal and
must not contain '\x7d'; the remaining segments alternate expression/literal.
The outer Option is `none` exactly when the Go code panics; the inner pair
mirrors Go's (template, err) returns, with template nil whenever err ≠ nil. -/
def Parse (raw : Str) : Option (Option Template × Option Err) :=
  match splitByte 123 raw with
  | [] => some (none, some (goStr "impossible"))
  | s0 :: rest =>
    if s0.contains 125 then some (none, some (goStr "unexpected \x7d"))
    else
      match parsePairs rest with
      | none => none
      | some (.error e) => some (none, some e)
      | some (.ok parts) => some (some ⟨raw, litPart s0 :: parts⟩, none)

/-- An environment value.  List elements and map values in the Go code are
interface values used only through their string form (a string is used
directly, anything else via fmt.Sprintf), so they are carried here as the
byte string they render to. -/
inductive Value where
  | VStr : Str → Value
  | VArr : List Str → Value
  | VMap : List (Str × Str) → Value
deriving DecidableEq, Repr

/-- The environment: a Go map, modelled as an association list whose order is
the map's iteration order (Go leaves it unspecified). -/
abbrev Env := List (Str × Value)

/-- Go map lookup values[name]. -/
def lookupEnv : Env → Str → Option Value
  | [], _ => none
  | (k, v) :: rest, n => if k = n then some v else lookupEnv rest n

/-- expandName: in a named expression write the name followed by '=' (or the
operator's ifemp text when the value is empty). -/
def templatePart.expandName (t : templatePart) (buf : Str) (name : Str) (empty : Bool) : Str :=
  if t.named then buf ++ name ++ (if empty then t.ifemp else [61]) else buf

/-- The truncation step of expandString / expandArray: Go's
`if len(s) > term.truncate && term.truncate > 0 then s = s[:term.truncate]`,
a byte slice. -/
def truncGo (term : templateTerm) (s : Str) : Str :=
  if term.truncate < (s.length : Int) ∧ 0 < term.truncate then
    s.take term.truncate.toNat
  else s

/-- expandString: truncate, write the (possibly empty-flagged) name, then the
percent-encoded value. -/
def templatePart.expandString (t : templatePart) (buf : Str) (term : templateTerm) (s : Str) : Str :=
  (t.expandName buf term.name ((truncGo term s).length = 0)) ++
    escape (truncGo term s) t.allowReserved

/-- The indexed loop of expandArray. -/
def expandArrayLoop (t : templatePart) (term : templateTerm) : List Str → Nat → Str → Str
  | [], _, buf => buf
  | s :: rest, i, buf =>
    let buf := if term.explode ∧ 0 < i then buf ++ t.sep
               else if 0 < i then buf ++ [44] else buf
    let s1 := truncGo term s
    let buf := if t.named ∧ term.explode then t.expandName buf term.name (s1.length = 0) else buf
    expandArrayLoop t term rest (i + 1) (buf ++ escape s1 t.allowReserved)

/-- expandArray: an empty slice writes nothing; a non-exploded term writes its
name once up front. -/
def templatePart.expandArray (t : templatePart) (buf : Str) (term : templateTerm) (a : List Str) : Str :=
  if a.length = 0 then buf
  else
    let buf := if ¬ term.explode then t.expandName buf term.name false else buf
    expandArrayLoop t term a 0 buf

/-- The loop of expandMap, separating pairs by comparing the buffer length
against its length before the loop. -/
def expandMapLoop (t : templatePart) (term : templateTerm) (firstLen : Nat) : List (Str × Str) → Str → Str
  | [], buf => buf
  | (k, s) :: rest, buf =>
    let buf := if ¬ (firstLen = buf.length) then
                 (if term.explode then buf ++ t.sep else buf ++ [44])
               else buf
    let buf := if term.explode then
                 buf ++ escape k t.allowReserved ++ [61] ++ escape s t.allowReserved
               else
                 buf ++ escape k t.allowReserved ++ [44] ++ escape s t.allowReserved
    expandMapLoop t term firstLen rest buf

/-- expandMap: an empty map writes nothing; otherwise key/value pairs in the
map's iteration order. -/
def templatePart.expandMap (t : templatePart) (buf : Str) (term : templateTerm) (m : List (Str × Str)) : Str :=
  if m.length = 0 then buf
  else
    let buf := if ¬ term.explode then t.expandName buf term.name (m.length = 0) else buf
    expandMapLoop t term buf.length m buf

/-- The term loop of templatePart.expand: skip absent names; write the
separator whenever the buffer has moved past firstLen; dispatch on the value
kind, with the truncate-on-map check raised before any map output. -/
def expandTerms (t : templatePart) (values : Env) (firstLen : Nat) : List templateTerm → Str → Str × Option Err
  | [], buf => (buf, none)
  | term :: rest, buf =>
    match lookupEnv values term.name with
    | none => expandTerms t values firstLen rest buf
    | some v =>
      let buf1 := if buf.length = firstLen then buf else buf ++ t.sep
      match v with
      | .VStr s => expandTerms t values firstLen rest (t.expandString buf1 term s)
      | .VArr a => expandTerms t values firstLen rest (t.expandArray buf1 term a)
      | .VMap m =>
        if 0 < term.truncate then (buf1, some (goStr "cannot truncate a map expansion"))
        else expandTerms t values firstLen rest (t.expandMap buf1 term m)

/-- templatePart.expand: a part with raw text is a literal; otherwise write
the prefix, run the terms, and roll the buffer back to its initial length
when no term rendered anything. -/
def templatePart.expand (t : templatePart) (buf : Str) (values : Env) : Str × Option Err :=
  if 0 < t.raw.length then (buf ++ t.raw, none)
  else
    let zeroLen := buf.length
    let buf1 := buf ++ t.first
    let firstLen := buf1.length
    match expandTerms t values firstLen t.terms buf1 with
    | (buf2, some e) => (buf2, some e)
    | (buf2, none) =>
      if buf2.length = firstLen then (buf2.take zeroLen, none) else (buf2, none)

/-- The loop of Template.Expand: the first part error aborts with "". -/
def expandParts (values : Env) : List templatePart → Str → Str × Option Err
  | [], buf => (buf, none)
  | p :: ps, buf =>
    match p.expand buf values with
    | (buf2, none) => expandParts values ps buf2
    | (_, some e) => ([], some e)

/-- The dynamic value handed to Template.Expand, classified by what reflect
sees: a string-keyed map; a struct (carried as the field map struct2map
builds for it); the untyped nil interface; a nil pointer (of any pointee
type); a non-nil pointer to a further value; or a value of any other kind
(int, string, slice, ...), whose content struct2map never inspects. -/
inductive TopValue where
  | TMap : Env → TopValue
  | TStruct : Env → TopValue
  | TNilInterface : TopValue
  | TNilPtr : TopValue
  | TPtr : TopValue → TopValue
  | TScalar : TopValue
deriving Repr

/-- struct2map: reflect.ValueOf(nil) is the zero Value, so value.Type()
panics on the nil interface; a nil pointer's Elem() is the zero Value, so
Elem().Interface() panics too — both modelled as `none`.  A non-nil pointer
recurses on its pointee; a struct yields (field map, true); every other kind
falls through to (nil, false), here `some Option.none`. -/
def struct2map : TopValue → Option (Option Env)
  | .TNilInterface => none
  | .TNilPtr => none
  | .TPtr v => struct2map v
  | .TStruct m => some (some m)
  | .TMap _ => some none
  | .TScalar => some none

/-- The error text of the non-map, non-struct branch of Template.Expand. -/
def expectedMapErr : Err :=
  goStr "expected map[string]interface\x7b\x7d, struct, or pointer to struct."

/-- Template.Expand: a map expands directly; anything else goes through
struct2map — whose panic propagates (`none`) — and is either rejected with ""
plus an error, or (a struct's field map) expanded like a map. -/
def Template.Expand (t : Template) (v : TopValue) : Option (Str × Option Err) :=
  match v with
  | .TMap m => some (expandParts m t.parts [])
  | v' =>
    match struct2map v' with
    | none => none
    | some none => some ([], some expectedMapErr)
    | some (some m) => some (expandParts m t.parts [])

/-- The package-level convenience Expand: parse, then expand with the copied
map; `none` marks a panic in either stage. -/
def ExpandURI (path : Str) (expansions : Env) : Option (Str × Option Err) :=
  match Parse path with
  | none => none
  | some (_, some e) => some ([], some e)
  | some (some t, none) => t.Expand (.TMap expansions)
  | some (none, none) => some ([], some (goStr "impossible"))

/-!
## Shared helper lemmas
-/

/-- Taking the length of the left operand from an append returns it. -/
theorem take_len_append (a b : Str) : (a ++ b).take a.length = a := by
  induction a with
  | nil => simp
  | cons x xs ih => simp [ih]

/-- Truncation never fires on the empty string. -/
theorem truncGo_nil (term : templateTerm) : truncGo term [] = [] := by
  unfold truncGo
  rw [if_neg]
  rintro ⟨h1, h2⟩
  simp at h1
  omega

/-- expandString on the empty string: only the name and the ifemp text of a
named expression are written. -/
theorem expandString_empty (t : templatePart) (buf : Str) (term : templateTerm) :
    t.expandString buf term [] = if t.named then buf ++ term.name ++ t.ifemp else buf := by
  unfold templatePart.expandString
  rw [truncGo_nil]
  unfold templatePart.expandName escape
  split
  · simp
  · simp

/-- expandArray writes nothing for an empty slice. -/
theorem expandArray_nil (t : templatePart) (buf : Str) (term : templateTerm) :
    t.expandArray buf term [] = buf := by
  simp [templatePart.expandArray]

/-- expandMap writes nothing for an empty map. -/
theorem expandMap_nil (t : templatePart) (buf : Str) (term : templateTerm) :
    t.expandMap buf term [] = buf := by
  simp [templatePart.expandMap]

/-!
## Theorems about the claims
-/

/-- C1: the spec claims parse is total and returns a ParseError on an empty
expression body such as "\x7b\x7d".  The code instead panics: parseExpression
indexes `expression[0]` on the empty string.  This theorem evaluates the
embedding at the failing input: the result is the panic marker, not an error
value. -/
theorem parse_empty_expression_body_crashes :
    Parse (goStr "\x7b\x7d") = none := by decide

/-- C2 counterexample: a term whose value is an empty list does contribute a
separator when an earlier term rendered: expanding "\x7b?a,b\x7d" with a = "x"
and b = [] yields "?a=x&" (trailing separator), not the "?a=x" the claim
requires. -/
theorem empty_list_term_emits_separator_cex :
    ExpandURI (goStr "\x7b?a,b\x7d")
        [(goStr "a", .VStr (goStr "x")), (goStr "b", .VArr [])] =
      some (goStr "?a=x&", none) ∧
    ¬ (goStr "?a=x&" = goStr "?a=x") := by decide

/-- C3 counterexample: a present-but-empty scalar is not treated as absent:
expanding "\x7b?a\x7d" with a = "" yields "?a=" (name and empty-value text),
while with a absent it yields "". -/
theorem empty_scalar_not_absent_cex :
    ExpandURI (goStr "\x7b?a\x7d") [(goStr "a", .VStr [])] = some (goStr "?a=", none) ∧
    ExpandURI (goStr "\x7b?a\x7d") [] = some ([], none) ∧
    ¬ (goStr "?a=" = ([] : Str)) := by decide

/-- C5 counterexample: an expression whose only term is present with an empty
scalar value does not contribute the empty string under a named operator:
"x\x7b?a\x7d y" with a = "" expands to "x?a=y", not "xy". -/
theorem empty_expression_suppression_cex :
    ExpandURI (goStr "x\x7b?a\x7dy") [(goStr "a", .VStr [])] =
      some (goStr "x?a=y", none) ∧
    ¬ (goStr "x?a=y" = goStr "xy") := by decide

/-- C6 counterexample: truncation slices bytes, not characters: for truncate 1
and string form "éa" (bytes C3 A9 61) the rendered value before encoding is
the lone byte C3, while the first 1 character of "éa" is "é" (bytes C3 A9). -/
theorem truncate_bytes_not_chars_cex :
    truncGo ⟨goStr "x", false, 1⟩ (goStr "éa") = [195] ∧
    goStr (("éa").take 1) = [195, 169] ∧
    ¬ (truncGo ⟨goStr "x", false, 1⟩ (goStr "éa") = goStr (("éa").take 1)) := by decide

/-- C7 counterexample: the term "x:-1" is not rejected: strconv.ParseInt
accepts the sign, so parseTerm returns no error and truncate = -1, and
Parse("\x7bx:-1\x7d") succeeds (error component nil, template non-nil). -/
theorem negative_truncate_accepted_cex :
    (parseTerm (goStr "x:-1")).2 = none ∧
    (parseTerm (goStr "x:-1")).1.truncate = -1 ∧
    ((Parse (goStr "\x7bx:-1\x7d")).map fun r => (r.1.isSome, r.2)) = some (true, none) := by
  decide

/-- C2 amended: a term whose value is an empty list (or an empty map, when no
truncation is requested) writes no name and no text of its own, but the
expression's separator is still written for it whenever an earlier term has
already rendered (buffer past firstLen); when nothing rendered before it, the
buffer is left untouched. -/
theorem empty_collection_term_step (t : templatePart) (values : Env) (firstLen : Nat)
    (term : templateTerm) (rest : List templateTerm) (buf : Str)
    (h : lookupEnv values term.name = some (.VArr []) ∨
         (lookupEnv values term.name = some (.VMap []) ∧ term.truncate ≤ 0)) :
    expandTerms t values firstLen (term :: rest) buf =
      expandTerms t values firstLen rest
        (if buf.length = firstLen then buf else buf ++ t.sep) := by
  rcases h with h | ⟨h, hle⟩
  · simp only [expandTerms, h]
    rw [expandArray_nil]
  · simp only [expandTerms, h]
    rw [if_neg (by omega), expandMap_nil]

/-- A query-operator expression over terms a and b, as parsed from
"\x7b?a,b\x7d". -/
def qPart : templatePart :=
  ⟨[], [⟨goStr "a", false, 0⟩, ⟨goStr "b", false, 0⟩],
   goStr "?", goStr "&", true, goStr "=", false⟩

/-- Witness for the C2 amended theorem at a concrete input: term b holds an
empty list and the buffer has already advanced past firstLen. -/
theorem empty_collection_term_step_witness :
    lookupEnv [(goStr "b", Value.VArr [])] (goStr "b") = some (.VArr []) ∧
    expandTerms qPart [(goStr "b", Value.VArr [])] 1 [⟨goStr "b", false, 0⟩] (goStr "?a=x") =
      expandTerms qPart [(goStr "b", Value.VArr [])] 1 []
        (if (goStr "?a=x").length = 1 then goStr "?a=x" else goStr "?a=x" ++ qPart.sep) :=
  ⟨by decide,
   empty_collection_term_step qPart [(goStr "b", Value.VArr [])] 1 ⟨goStr "b", false, 0⟩ []
     (goStr "?a=x") (Or.inl (by decide))⟩

/-- C3 amended: a present-but-empty scalar is rendered as an empty value, not
skipped: in a named expression the term's name and the operator's ifemp text
are written; in an unnamed expression it contributes nothing. -/
theorem empty_scalar_rendering (t : templatePart) (buf : Str) (term : templateTerm) :
    t.expandString buf term [] = if t.named then buf ++ term.name ++ t.ifemp else buf :=
  expandString_empty t buf term

/-- A term counts as contributing nothing when it is absent, holds an empty
list, holds an empty map without a truncation request, or holds an empty
scalar in an unnamed expression. -/
def termEmptyish (t : templatePart) (values : Env) (term : templateTerm) : Prop :=
  lookupEnv values term.name = none ∨
  lookupEnv values term.name = some (.VArr []) ∨
  (lookupEnv values term.name = some (.VMap []) ∧ term.truncate ≤ 0) ∨
  (lookupEnv values term.name = some (.VStr []) ∧ t.named = false)

/-- The term loop writes nothing when every term contributes nothing and the
buffer starts at firstLen. -/
theorem expandTerms_all_emptyish (t : templatePart) (values : Env) (firstLen : Nat)
    (terms : List templateTerm) (buf : Str)
    (hbuf : buf.length = firstLen)
    (h : ∀ term ∈ terms, termEmptyish t values term) :
    expandTerms t values firstLen terms buf = (buf, none) := by
  induction terms with
  | nil => rfl
  | cons term rest ih =>
    have hterm := h term (by simp)
    have hrest : ∀ x ∈ rest, termEmptyish t values x := fun x hx => h x (by simp [hx])
    rcases hterm with h1 | h1 | ⟨h1, hle⟩ | ⟨h1, hn⟩
    · simp only [expandTerms, h1]
      exact ih hrest
    · simp only [expandTerms, h1, if_pos hbuf]
      rw [expandArray_nil]
      exact ih hrest
    · simp only [expandTerms, h1, if_pos hbuf]
      rw [if_neg (by omega), expandMap_nil]
      exact ih hrest
    · simp only [expandTerms, h1, if_pos hbuf]
      rw [expandString_empty, if_neg (by simp [hn])]
      exact ih hrest

/-- C5 amended: an expression part whose every term is absent, an empty list,
an empty map (without truncation), or — under an unnamed operator — an empty
scalar, contributes exactly the empty string: the buffer, including the
operator prefix, is returned unchanged and no error is raised.  (The original
claim also covered empty scalars under named operators; those render
name-plus-ifemp text, see the counterexample.) -/
theorem empty_expression_contributes_nothing (t : templatePart) (values : Env) (buf : Str)
    (hraw : t.raw = [])
    (h : ∀ term ∈ t.terms, termEmptyish t values term) :
    t.expand buf values = (buf, none) := by
  unfold templatePart.expand
  rw [if_neg (by simp [hraw])]
  show (match expandTerms t values (buf ++ t.first).length t.terms (buf ++ t.first) with
    | (buf2, some e) => (buf2, some e)
    | (buf2, none) =>
      if buf2.length = (buf ++ t.first).length then (buf2.take buf.length, none)
      else (buf2, none)) = (buf, none)
  rw [expandTerms_all_emptyish t values (buf ++ t.first).length t.terms (buf ++ t.first) rfl h]
  simp [take_len_append]

/-- Witness for the C5 amended theorem: both terms of "\x7b?a,b\x7d" absent,
arbitrary literal already in the buffer. -/
theorem empty_expression_contributes_nothing_witness :
    qPart.raw = [] ∧ qPart.expand (goStr "x/") [] = (goStr "x/", none) :=
  ⟨rfl,
   empty_expression_contributes_nothing qPart [] (goStr "x/") rfl
     (by
       intro term ht
       exact Or.inl rfl)⟩

/-- A byte that is an uppercase hex digit ('0'-'9' or 'A'-'F'). -/
def isUpperHexByte (d : Nat) : Bool := (48 ≤ d && d ≤ 57) || (65 ≤ d && d ≤ 70)

/-- C4: escape works byte-wise (it distributes over byte concatenation); with
allowReserved (operators + and #) exactly the reserved-allowed bytes pass
through unencoded, otherwise exactly the unreserved bytes do; every other byte
becomes '%' followed by the two uppercase hex digits of its value. -/
theorem escape_byte_classes :
    (∀ (s1 s2 : Str) (allow : Bool),
        escape (s1 ++ s2) allow = escape s1 allow ++ escape s2 allow) ∧
    (∀ b : Nat, isReservedAllowedByte b = true → escape [b] true = [b]) ∧
    (∀ b : Nat, isReservedAllowedByte b = false →
        escape [b] true = [37, hexDigit (b / 16), hexDigit (b % 16)]) ∧
    (∀ b : Nat, isUnreservedByte b = true → escape [b] false = [b]) ∧
    (∀ b : Nat, isUnreservedByte b = false →
        escape [b] false = [37, hexDigit (b / 16), hexDigit (b % 16)]) ∧
    (∀ b : Nat, b < 256 →
        isUpperHexByte (hexDigit (b / 16)) = true ∧ isUpperHexByte (hexDigit (b % 16)) = true) := by
  refine ⟨?_, ?_, ?_, ?_, ?_, ?_⟩
  · intro s1 s2 allow
    simp [escape]
  · intro b hb
    simp [escape, hb]
  · intro b hb
    simp [escape, hb, pctByte]
  · intro b hb
    simp [escape, hb]
  · intro b hb
    simp [escape, hb, pctByte]
  · intro b hb
    have h1 : b / 16 < 16 := by omega
    have h2 : b % 16 < 16 := by omega
    constructor
    · unfold isUpperHexByte hexDigit
      split
      · simp; omega
      · simp; omega
    · unfold isUpperHexByte hexDigit
      split
      · simp; omega
      · simp; omega

/-- Witness for C4 at concrete bytes: '/' (47) passes through under +/# but is
encoded as %2F elsewhere. -/
theorem escape_byte_classes_witness :
    isReservedAllowedByte 47 = true ∧ escape [47] true = [47] ∧
    isUnreservedByte 47 = false ∧ escape [47] false = [37, 50, 70] :=
  ⟨by decide,
   escape_byte_classes.2.1 47 (by decide),
   by decide,
   (escape_byte_classes.2.2.2.2.1 47 (by decide)).trans (by decide)⟩

/-- C6 amended: the truncation step takes the first n bytes of the scalar's
byte string when 0 < truncate = n and the byte length exceeds n, and leaves
the value unchanged when the byte length is at most n or when truncate ≤ 0
(which covers the parsed negative lengths). -/
theorem truncate_takes_bytes (term : templateTerm) (s : Str) :
    (0 < term.truncate →
      (term.truncate < (s.length : Int) → truncGo term s = s.take term.truncate.toNat) ∧
      ((s.length : Int) ≤ term.truncate → truncGo term s = s)) ∧
    (term.truncate ≤ 0 → truncGo term s = s) := by
  unfold truncGo
  refine ⟨fun hpos => ⟨fun hlt => ?_, fun hle => ?_⟩, fun hle => ?_⟩
  · rw [if_pos ⟨hlt, hpos⟩]
  · rw [if_neg]
    rintro ⟨h1, _⟩
    omega
  · rw [if_neg]
    rintro ⟨_, h2⟩
    omega

/-- Witness for C6 amended: truncate 2 on the 3-byte "abc" keeps "ab". -/
theorem truncate_takes_bytes_witness :
    truncGo ⟨goStr "n", false, 2⟩ (goStr "abc") = goStr "ab" :=
  (((truncate_takes_bytes ⟨goStr "n", false, 2⟩ (goStr "abc")).1 (by decide)).1
    (by decide)).trans (by decide)

/-- C7 amended: a ':' suffix that is not a decimal integer (optionally signed)
makes parseTerm fail, but a negative integer such as in "x:-1" is accepted by
strconv.ParseInt: the term parses with truncate = -1, and a non-positive
truncate disables truncation at expansion time. -/
theorem truncate_suffix_parse_errors (tm nm rest : Str)
    (hstar : (tm.getLast? == some 42) = false)
    (hsplit : splitByte 58 tm = [nm, rest])
    (herr : (parseIntGo rest).2.isSome = true) :
    (parseTerm tm).2.isSome = true ∧
    (parseTerm (goStr "x:-1")).2 = none ∧
    (parseTerm (goStr "x:-1")).1.truncate = -1 ∧
    (∀ (t : templateTerm) (s : Str), t.truncate ≤ 0 → truncGo t s = s) := by
  refine ⟨?_, by decide, by decide, ?_⟩
  · simp [parseTerm, hstar, hsplit]
    split
    · exact herr
    · rfl
  · intro t s hle
    unfold truncGo
    rw [if_neg]
    rintro ⟨_, h2⟩
    omega

/-- Witness for C7 amended: the non-numeric suffix "x:abc" is a parse error. -/
theorem truncate_suffix_parse_errors_witness :
    ((goStr "x:abc").getLast? == some 42) = false ∧
    splitByte 58 (goStr "x:abc") = [goStr "x", goStr "abc"] ∧
    (parseIntGo (goStr "abc")).2.isSome = true ∧
    (parseTerm (goStr "x:abc")).2.isSome = true :=
  ⟨by decide, by decide, by decide,
   (truncate_suffix_parse_errors (goStr "x:abc") (goStr "x") (goStr "abc")
     (by decide) (by decide) (by decide)).1⟩

/-- C8: for each operator byte the expression configuration (prefix,
separator, named flag, ifemp text, allowReserved flag) is exactly the table's
row, and any other first byte selects the simple operator with prefix "",
separator ",", unnamed, no reserved characters. -/
theorem operator_table (rest : Str) (c : Nat)
    (hc : ¬ (c = 43 ∨ c = 46 ∨ c = 47 ∨ c = 59 ∨ c = 63 ∨ c = 38 ∨ c = 35)) :
    ((parseExpression (43 :: rest)).map fun r =>
        (r.1.first, r.1.sep, r.1.named, r.1.ifemp, r.1.allowReserved)) =
      some ([], [44], false, [], true) ∧
    ((parseExpression (46 :: rest)).map fun r =>
        (r.1.first, r.1.sep, r.1.named, r.1.ifemp, r.1.allowReserved)) =
      some ([46], [46], false, [], false) ∧
    ((parseExpression (47 :: rest)).map fun r =>
        (r.1.first, r.1.sep, r.1.named, r.1.ifemp, r.1.allowReserved)) =
      some ([47], [47], false, [], false) ∧
    ((parseExpression (59 :: rest)).map fun r =>
        (r.1.first, r.1.sep, r.1.named, r.1.ifemp, r.1.allowReserved)) =
      some ([59], [59], true, [], false) ∧
    ((parseExpression (63 :: rest)).map fun r =>
        (r.1.first, r.1.sep, r.1.named, r.1.ifemp, r.1.allowReserved)) =
      some ([63], [38], true, [61], false) ∧
    ((parseExpression (38 :: rest)).map fun r =>
        (r.1.first, r.1.sep, r.1.named, r.1.ifemp, r.1.allowReserved)) =
      some ([38], [38], true, [61], false) ∧
    ((parseExpression (35 :: rest)).map fun r =>
        (r.1.first, r.1.sep, r.1.named, r.1.ifemp, r.1.allowReserved)) =
      some ([35], [44], false, [], true) ∧
    ((parseExpression (c :: rest)).map fun r =>
        (r.1.first, r.1.sep, r.1.named, r.1.ifemp, r.1.allowReserved)) =
      some ([], [44], false, [], false) := by
  push_neg at hc
  obtain ⟨h1, h2, h3, h4, h5, h6, h7⟩ := hc
  refine ⟨?_, ?_, ?_, ?_, ?_, ?_, ?_, ?_⟩ <;>
    simp [parseExpression, exprConfig, h1, h2, h3, h4, h5, h6, h7]

/-- Witness for C8 at a concrete non-operator first byte 'x' (120). -/
theorem operator_table_witness :
    ((parseExpression (120 :: goStr "a")).map fun r =>
        (r.1.first, r.1.sep, r.1.named, r.1.ifemp, r.1.allowReserved)) =
      some ([], [44], false, [], false) :=
  (operator_table (goStr "a") 120 (by decide)).2.2.2.2.2.2.2

/-- The expandParts loop returns the empty string alongside any error. -/
theorem expandParts_error_empty (values : Env) (ps : List templatePart) :
    ∀ (buf s : Str) (e : Err), expandParts values ps buf = (s, some e) → s = [] := by
  induction ps with
  | nil =>
    intro buf s e h
    simp [expandParts] at h
  | cons p ps ih =>
    intro buf s e h
    unfold expandParts at h
    rcases hp : p.expand buf values with ⟨buf2, err⟩
    rw [hp] at h
    cases err with
    | none => exact ih buf2 s e h
    | some e2 => exact (congrArg Prod.fst h).symm

/-- Template.Expand returns the empty string alongside any error (the panic
result `none` returns nothing at all). -/
theorem Expand_error_empty (t : Template) (v : TopValue) (s : Str) (e : Err)
    (h : Template.Expand t v = some (s, some e)) : s = [] := by
  cases v with
  | TMap m => exact expandParts_error_empty m t.parts [] s e (Option.some.inj h)
  | TStruct m => exact expandParts_error_empty m t.parts [] s e (Option.some.inj h)
  | TNilInterface => exact absurd h (by simp [Template.Expand, struct2map])
  | TNilPtr => exact absurd h (by simp [Template.Expand, struct2map])
  | TScalar => exact (congrArg Prod.fst (Option.some.inj h)).symm
  | TPtr p =>
    have hred : Template.Expand t (.TPtr p) =
        (match struct2map (.TPtr p) with
          | none => none
          | some none => some ([], some expectedMapErr)
          | some (some m) => some (expandParts m t.parts [])) := rfl
    rw [hred] at h
    rcases hsm : struct2map (.TPtr p) with _ | (_ | m) <;> rw [hsm] at h
    · simp at h
    · exact (congrArg Prod.fst (Option.some.inj h)).symm
    · exact expandParts_error_empty m t.parts [] s e (Option.some.inj h)

/-- C9: errors are atomic and fail-fast: Parse returns a nil template
alongside any error, Template.Expand returns the empty string alongside any
error, and so does the one-shot package-level Expand. -/
theorem fail_fast_abort :
    (∀ raw r, Parse raw = some r → r.2.isSome = true → r.1 = none) ∧
    (∀ (t : Template) (v : TopValue) (s : Str) (e : Err),
        Template.Expand t v = some (s, some e) → s = []) ∧
    (∀ path env r, ExpandURI path env = some r → r.2.isSome = true → r.1 = []) := by
  refine ⟨?_, Expand_error_empty, ?_⟩
  · intro raw r h hs
    unfold Parse at h
    split at h
    · cases h; rfl
    · split at h
      · cases h; rfl
      · split at h
        · exact absurd h (by simp)
        · cases h; rfl
        · cases h; simp at hs
  · intro path env r h hs
    unfold ExpandURI at h
    split at h
    · exact absurd h (by simp)
    · cases h; rfl
    next t heq =>
      rcases r with ⟨s2, err2⟩
      cases err2 with
      | none => simp at hs
      | some e2 => exact Expand_error_empty t (.TMap env) s2 e2 h
    · cases h; rfl

/-- Witness for C9: a parse error ("a\x7bb" misses its closing brace) comes with
a nil template, and an expansion error (truncating a map) comes with "". -/
theorem fail_fast_abort_witness :
    Parse (goStr "a\x7bb") = some (none, some (goStr "malformed template")) ∧
    ((none : Option Template), some (goStr "malformed template")).1 =
      (none : Option Template) ∧
    ExpandURI (goStr "\x7bm:1\x7d") [(goStr "m", .VMap [(goStr "k", goStr "v")])] =
      some ([], some (goStr "cannot truncate a map expansion")) ∧
    (([] : Str), some (goStr "cannot truncate a map expansion")).1 = ([] : Str) :=
  ⟨by decide,
   fail_fast_abort.1 (goStr "a\x7bb") (none, some (goStr "malformed template"))
     (by decide) (by decide),
   by decide,
   fail_fast_abort.2.2 (goStr "\x7bm:1\x7d")
     [(goStr "m", .VMap [(goStr "k", goStr "v")])]
     ([], some (goStr "cannot truncate a map expansion")) (by decide) (by decide)⟩

/-- C10 counterexample: on a parsed template, Expand with the nil interface
value — or with a nil pointer — does not return ("", error): struct2map calls
Type() respectively Elem().Interface() on the zero reflect.Value and panics,
modelled as the panic marker `none`. -/
theorem expand_nil_value_crashes_cex :
    Parse (goStr "x") = some (some ⟨goStr "x", [litPart (goStr "x")]⟩, none) ∧
    Template.Expand ⟨goStr "x", [litPart (goStr "x")]⟩ .TNilInterface = none ∧
    Template.Expand ⟨goStr "x", [litPart (goStr "x")]⟩ .TNilPtr = none := by decide

/-- True exactly for the values struct2map resolves, without panicking, to
(nil, false): a non-map non-struct non-pointer kind, or a map, each possibly
behind non-nil pointers. -/
def struct2mapRejects : TopValue → Bool
  | .TScalar => true
  | .TMap _ => true
  | .TPtr v => struct2mapRejects v
  | _ => false

/-- On the rejected class, struct2map returns (nil, false) without panic. -/
theorem struct2map_rejects_eq (v : TopValue) (h : struct2mapRejects v = true) :
    struct2map v = some none := by
  induction v with
  | TMap m => rfl
  | TStruct m => exact Bool.noConfusion h
  | TNilInterface => exact Bool.noConfusion h
  | TNilPtr => exact Bool.noConfusion h
  | TScalar => rfl
  | TPtr p ih => exact ih h

/-- C10 amended: for every template, Expand applied to a value that is
neither a map nor (through non-nil pointers) a struct returns "" together
with an error — provided the value is not the nil interface and dereferencing
meets no nil pointer; at nil itself, or at a nil pointer, Expand instead
panics inside struct2map. -/
theorem expand_rejects_reachable_non_map (t : Template) (v : TopValue)
    (hm : ∀ m, v ≠ .TMap m)
    (hr : struct2mapRejects v = true) :
    Template.Expand t v = some ([], some expectedMapErr) ∧
    Template.Expand t .TNilInterface = none ∧
    Template.Expand t .TNilPtr = none := by
  refine ⟨?_, rfl, rfl⟩
  have hs := struct2map_rejects_eq v hr
  cases v with
  | TMap m => exact absurd rfl (hm m)
  | TStruct m => exact Bool.noConfusion hr
  | TNilInterface => exact Bool.noConfusion hr
  | TNilPtr => exact Bool.noConfusion hr
  | TScalar => rfl
  | TPtr p =>
    show (match struct2map (.TPtr p) with
      | none => none
      | some none => some ([], some expectedMapErr)
      | some (some m) => some (expandParts m t.parts [])) = some ([], some expectedMapErr)
    rw [hs]

/-- Witness for C10 amended at a concrete input: a scalar-kinded value (e.g.
an int) against the parsed template "x". -/
theorem expand_rejects_reachable_non_map_witness :
    struct2mapRejects .TScalar = true ∧
    Template.Expand ⟨goStr "x", [litPart (goStr "x")]⟩ .TScalar =
      some ([], some expectedMapErr) :=
  ⟨rfl,
   (expand_rejects_reachable_non_map ⟨goStr "x", [litPart (goStr "x")]⟩ .TScalar
     (fun _ h => TopValue.noConfusion h) rfl).1⟩

end Uri
